import Mathlib

/-!
Verification of the raffle backend's cache/aggregation engine.

This file shallowly embeds the core logic of the backend (event parsing,
leaderboard and statistics aggregation, the analytics upsert write path, the
notification dedup ledger, and the read-endpoint response envelopes) as pure
Lean functions, and proves the specified properties about them.

Modelling conventions:
* JavaScript numbers are modelled as exact rationals (`ℚ`); integer-valued
  identifiers (`raffleId`, block heights) as `Int`; floating-point rounding is
  not modelled.
* JavaScript `x || y` chains are modelled by the `jsNum2`/`jsNum3`/`jsOrStr`
  helpers below, with the JS falsy values `undefined`, `""` and `0` mapped to
  `Option.none`, `""` and `0` respectively.
* JS `Map` and `Set` preserve insertion order; they are modelled as
  association lists updated in place (`upsertUser`) and as duplicate-free
  lists built left to right (`distinctList`, `addRaffle`).
* Asynchronous effects (Redis, Supabase, Apollo, notification delivery) are
  modelled by passing the relevant state or outcome explicitly.
* `new Date().toISOString()` timestamps are modelled by the constant `""`
  (wall-clock time is irrelevant to every property proved here).
-/

/-- The three activity kinds produced by the event source adapter
(`RaffleActivity.type` in `indexerService.ts` / `notificationTriggerService.ts`). -/
inductive ActivityType where
  | ticket_purchase
  | raffle_created
  | raffle_finalized
  deriving DecidableEq, Repr

/-- Normalized activity record (`interface RaffleActivity`). Optional fields are
populated depending on `type`. -/
structure RaffleActivity where
  type : ActivityType
  buyer : Option String := none
  creator : Option String := none
  winner : Option String := none
  raffleId : Int
  ticketCount : Option ℚ := none
  totalPaid : Option ℚ := none
  prizeAmount : Option ℚ := none
  timestamp : String := ""
  transactionVersion : String
  blockHeight : Int := 0
  deriving DecidableEq, Repr

/-- JS truthiness of an optional string: `undefined` and `""` are falsy. -/
def strTruthy : Option String → Bool
  | none => false
  | some s => s != ""

/-- JS `a || b` on optional strings. -/
def jsOrStr (a b : Option String) : Option String :=
  if strTruthy a then a else b

/-- JS `String(a || b || '')` on optional strings. -/
def jsStr2 (a b : Option String) : String :=
  (jsOrStr a b).getD ""

/-- JS `a || b || c || ''` on optional strings. -/
def jsStr3 (a b c : Option String) : String :=
  (jsOrStr a (jsOrStr b c)).getD ""

/-- JS `Number(a || 0)` on an optional numeric payload field. -/
def jsNum1 (a : Option ℚ) : ℚ := a.getD 0

/-- JS `Number(a || b || 0)`: `a` if present and nonzero, else `b` if present,
else `0`. -/
def jsNum2 (a b : Option ℚ) : ℚ :=
  match a with
  | some x => if x = 0 then jsNum1 b else x
  | none => jsNum1 b

/-- JS `Number(a || b || c || 0)`. -/
def jsNum3 (a b c : Option ℚ) : ℚ :=
  match a with
  | some x => if x = 0 then jsNum2 b c else x
  | none => jsNum2 b c

/-- JS `Number(a || b || 0)` for integer-valued id fields. -/
def jsInt2 (a b : Option Int) : Int :=
  match a with
  | some x => if x = 0 then b.getD 0 else x
  | none => b.getD 0

/-- `pat.isPrefixOf` based substring scan: does `pat` occur in the list? -/
def charsInclude (pat : List Char) : List Char → Bool
  | [] => pat.isEmpty
  | c :: cs => pat.isPrefixOf (c :: cs) || charsInclude pat cs

/-- JS `s.includes(pat)`. -/
def strIncludes (s pat : String) : Bool :=
  charsInclude pat.toList s.toList

/-- JS `s?.includes(pat)` (optional chaining: `undefined` is falsy). -/
def optIncludes (s : Option String) (pat : String) : Bool :=
  match s with
  | some s => strIncludes s pat
  | none => false

/-- Payload of a raw upstream event (`event.data`, already JSON-decoded).
Both snake_case and camelCase spellings of each logical field are carried,
mirroring the fallback chains in `parseEventData`. Absent fields are `none`. -/
structure RawEventData where
  buyer : Option String := none
  user : Option String := none
  creator : Option String := none
  winner : Option String := none
  winner_address : Option String := none
  raffle_id : Option Int := none
  raffleId : Option Int := none
  ticket_count : Option ℚ := none
  ticketCount : Option ℚ := none
  total_paid : Option ℚ := none
  totalPaid : Option ℚ := none
  ticket_price : Option ℚ := none
  ticketPrice : Option ℚ := none
  total_tickets : Option ℚ := none
  totalTickets : Option ℚ := none
  target_amount : Option ℚ := none
  targetAmount : Option ℚ := none
  prize_amount : Option ℚ := none
  prizeAmount : Option ℚ := none
  amount : Option ℚ := none
  deriving DecidableEq, Repr

/-- Raw upstream event as returned by the indexer query. -/
structure RawEvent where
  type : Option String := none
  indexed_type : Option String := none
  data : RawEventData := {}
  transaction_version : String := ""
  transaction_block_height : Int := 0
  deriving DecidableEq, Repr

/-- `parseEventData` from `notificationTriggerService.ts` (lines 274-334):
classifies a raw event by substring-matching its type tag, normalizes the
payload fields through the `||` fallback chains, divides monetary octa values
by `10^8`, and returns `none` for unknown or malformed events. -/
def parseEventData (event : RawEvent) : Option RaffleActivity :=
  let eventData := event.data
  let eventType := jsOrStr event.type event.indexed_type
  if optIncludes eventType "BuyTicketEvent" then
    some { type := ActivityType.ticket_purchase,
           buyer := some (jsStr2 eventData.buyer eventData.user),
           raffleId := jsInt2 eventData.raffle_id eventData.raffleId,
           ticketCount := some (jsNum2 eventData.ticket_count eventData.ticketCount),
           totalPaid := some (jsNum2 eventData.total_paid eventData.totalPaid / 100000000),
           timestamp := "",
           transactionVersion := event.transaction_version,
           blockHeight := event.transaction_block_height }
  else if optIncludes eventType "CreateRaffleEvent" || optIncludes eventType "RaffleCreatedEvent" then
    let ticketPrice := jsNum2 eventData.ticket_price eventData.ticketPrice
    let totalTickets := jsNum2 eventData.total_tickets eventData.totalTickets
    let targetAmount := jsNum2 eventData.target_amount eventData.targetAmount
    let prizeAmountOctas := if targetAmount > 0 then targetAmount else ticketPrice * totalTickets
    some { type := ActivityType.raffle_created,
           creator := some (eventData.creator.getD ""),
           raffleId := jsInt2 eventData.raffle_id eventData.raffleId,
           prizeAmount := some (prizeAmountOctas / 100000000),
           timestamp := "",
           transactionVersion := event.transaction_version,
           blockHeight := event.transaction_block_height }
  else if optIncludes eventType "FinalizeRaffleEvent" || optIncludes eventType "RaffleFinalizedEvent" then
    some { type := ActivityType.raffle_finalized,
           winner := some (jsStr2 eventData.winner eventData.winner_address),
           raffleId := jsInt2 eventData.raffle_id eventData.raffleId,
           prizeAmount := some (jsNum3 eventData.prize_amount eventData.prizeAmount eventData.amount / 100000000),
           timestamp := "",
           transactionVersion := event.transaction_version,
           blockHeight := event.transaction_block_height }
  else
    none

/-- The post-processing of a successful fetch in `fetchRaffleEvents`:
`data.events.map(parseEventData).filter(a => a !== null)`. -/
def processRaffleEvents (events : List RawEvent) : List RaffleActivity :=
  (events.map parseEventData).filterMap id

/-- Outcome of the upstream GraphQL query in `fetchRaffleEvents`: the query may
throw (network or GraphQL error surfaced by the client), or return a response
whose `data.events` may be missing; non-fatal GraphQL errors alongside data are
only logged. -/
inductive FetchOutcome where
  | queryThrown
  | response (events : Option (List RawEvent)) (hasErrors : Bool)
  deriving DecidableEq, Repr

/-- `fetchRaffleEvents` (lines 339-377): any thrown error and any missing
`data.events` yields `[]`; otherwise the events are parsed and the
unparseable ones dropped. -/
def fetchRaffleEvents : FetchOutcome → List RaffleActivity
  | FetchOutcome.queryThrown => []
  | FetchOutcome.response none _ => []
  | FetchOutcome.response (some events) _ => processRaffleEvents events

/-- JS `Math.round(x)` = `⌊x + 0.5⌋`, as used by `octasToMove`. -/
def jsMathRound (x : ℚ) : ℤ := ⌊x + 1 / 2⌋

/-- `octasToMove` from `indexerService.ts` (lines 127-130), on its numeric
branch: `Math.round(octasNum) / 100000000`. -/
def octasToMove (octas : ℚ) : ℚ :=
  (jsMathRound octas : ℚ) / 100000000

/-- Leaderboard entry (`interface LeaderboardEntry`). -/
structure LeaderboardEntry where
  address : String
  totalTickets : ℚ
  totalSpent : ℚ
  raffleCount : Nat
  rank : Nat
  deriving DecidableEq, Repr

/-- Per-user accumulator of `getGlobalLeaderboard`:
`{ tickets: number; spent: number; raffles: Set<number> }`. -/
structure UserAgg where
  tickets : ℚ
  spent : ℚ
  raffles : List Int
  deriving DecidableEq, Repr

/-- The default accumulator `{ tickets: 0, spent: 0, raffles: new Set() }`. -/
def emptyAgg : UserAgg := { tickets := 0, spent := 0, raffles := [] }

/-- JS `Set.add`: append if not already present (insertion order preserved). -/
def addRaffle (rs : List Int) (r : Int) : List Int :=
  if r ∈ rs then rs else rs ++ [r]

/-- One `forEach` step of `getGlobalLeaderboard`:
`existing.tickets += a.ticketCount || 0; existing.spent += a.totalPaid || 0;
existing.raffles.add(a.raffleId)`. -/
def applyPurchase (u : UserAgg) (a : RaffleActivity) : UserAgg :=
  { tickets := u.tickets + a.ticketCount.getD 0,
    spent := u.spent + a.totalPaid.getD 0,
    raffles := addRaffle u.raffles a.raffleId }

/-- JS `Map.set` on an insertion-ordered association list: update in place if
the key exists, else append. -/
def upsertUser : List (String × UserAgg) → String → RaffleActivity → List (String × UserAgg)
  | [], b, a => [(b, applyPurchase emptyAgg a)]
  | (k, v) :: rest, b, a =>
    if k = b then (k, applyPurchase v a) :: rest
    else (k, v) :: upsertUser rest b a

/-- The key under which a purchase is grouped: `a.buyer!` (the JS non-null
assertion after the truthiness filter; `none` is collapsed to `""`, which the
filter has already excluded). -/
def buyerKey (a : RaffleActivity) : String := a.buyer.getD ""

/-- The filter of `getGlobalLeaderboard`:
`a.type === 'ticket_purchase' && a.buyer`. -/
def isPurchaseWithBuyer (a : RaffleActivity) : Bool :=
  a.type == ActivityType.ticket_purchase && strTruthy a.buyer

/-- The `userStats` map of `getGlobalLeaderboard` (lines 460-471). -/
def aggregateUsers (activities : List RaffleActivity) : List (String × UserAgg) :=
  (activities.filter isPurchaseWithBuyer).foldl
    (fun m a => upsertUser m (buyerKey a) a) []

/-- `Array.from(userStats.entries()).map(...)` with `rank: 0` placeholders. -/
def toEntries (m : List (String × UserAgg)) : List LeaderboardEntry :=
  m.map (fun p =>
    { address := p.1, totalTickets := p.2.tickets, totalSpent := p.2.spent,
      raffleCount := p.2.raffles.length, rank := 0 })

/-- Stable insertion for the descending sort
`.sort((a, b) => b.totalTickets - a.totalTickets)`: an element moves ahead
only of entries with strictly fewer tickets. -/
def insertDesc (e : LeaderboardEntry) : List LeaderboardEntry → List LeaderboardEntry
  | [] => [e]
  | x :: xs => if x.totalTickets < e.totalTickets then e :: x :: xs else x :: insertDesc e xs

/-- Stable sort descending by `totalTickets` (JS `Array.prototype.sort` is
stable). -/
def sortDesc : List LeaderboardEntry → List LeaderboardEntry
  | [] => []
  | x :: xs => insertDesc x (sortDesc xs)

/-- `.map((entry, index) => ({ ...entry, rank: index + 1 }))`, with the running
index made explicit. -/
def assignRanksFrom : Nat → List LeaderboardEntry → List LeaderboardEntry
  | _, [] => []
  | n, e :: es => { e with rank := n + 1 } :: assignRanksFrom (n + 1) es

/-- Pure core of `getGlobalLeaderboard` (lines 449-489): aggregate, sort
descending by tickets, truncate to `limit`, assign 1-based ranks. -/
def getGlobalLeaderboard (activities : List RaffleActivity) (limit : Nat) : List LeaderboardEntry :=
  assignRanksFrom 0 ((sortDesc (toEntries (aggregateUsers activities))).take limit)

/-- Per-user accumulator of `getRaffleLeaderboard`:
`{ tickets: number; spent: number }`. -/
structure UserAgg2 where
  tickets : ℚ
  spent : ℚ
  deriving DecidableEq, Repr

/-- The default accumulator `{ tickets: 0, spent: 0 }`. -/
def emptyAgg2 : UserAgg2 := { tickets := 0, spent := 0 }

/-- One `forEach` step of `getRaffleLeaderboard`. -/
def applyPurchase2 (u : UserAgg2) (a : RaffleActivity) : UserAgg2 :=
  { tickets := u.tickets + a.ticketCount.getD 0,
    spent := u.spent + a.totalPaid.getD 0 }

/-- JS `Map.set` for the raffle-specific accumulator. -/
def upsertUser2 : List (String × UserAgg2) → String → RaffleActivity → List (String × UserAgg2)
  | [], b, a => [(b, applyPurchase2 emptyAgg2 a)]
  | (k, v) :: rest, b, a =>
    if k = b then (k, applyPurchase2 v a) :: rest
    else (k, v) :: upsertUser2 rest b a

/-- The filter of `getRaffleLeaderboard`:
`a.type === 'ticket_purchase' && a.buyer && a.raffleId === raffleId`. -/
def isPurchaseForRaffle (raffleId : Int) (a : RaffleActivity) : Bool :=
  a.type == ActivityType.ticket_purchase && strTruthy a.buyer && a.raffleId == raffleId

/-- The `userStats` map of `getRaffleLeaderboard` (lines 504-514). -/
def aggregateUsersForRaffle (raffleId : Int) (activities : List RaffleActivity) :
    List (String × UserAgg2) :=
  (activities.filter (isPurchaseForRaffle raffleId)).foldl
    (fun m a => upsertUser2 m (buyerKey a) a) []

/-- Entry conversion of `getRaffleLeaderboard`, with the constant
`raffleCount: 1`. -/
def toEntries2 (m : List (String × UserAgg2)) : List LeaderboardEntry :=
  m.map (fun p =>
    { address := p.1, totalTickets := p.2.tickets, totalSpent := p.2.spent,
      raffleCount := 1, rank := 0 })

/-- Pure core of `getRaffleLeaderboard` (lines 494-531). -/
def getRaffleLeaderboard (raffleId : Int) (activities : List RaffleActivity) (limit : Nat) :
    List LeaderboardEntry :=
  assignRanksFrom 0 ((sortDesc (toEntries2 (aggregateUsersForRaffle raffleId activities))).take limit)

/-- Stats snapshot (`interface RaffleStats`). Raffle counters are `Int` because
`activeRaffles` is computed by subtraction in the source. -/
structure RaffleStats where
  totalTicketsSold : ℚ
  totalVolume : ℚ
  uniqueParticipants : Nat
  averageTicketsPerUser : ℚ
  totalRaffles : Int
  activeRaffles : Int
  completedRaffles : Int
  deriving DecidableEq, Repr

/-- JS `new Set(l)` (insertion order, first occurrence kept); only sizes and
membership are consumed downstream. -/
def distinctList {α : Type} [DecidableEq α] (l : List α) : List α :=
  l.foldl (fun acc x => if x ∈ acc then acc else acc ++ [x]) []

/-- The buyer values of `new Set(purchases.map(a => a.buyer).filter(Boolean))`:
absent and empty buyers are falsy and dropped (an absent buyer is collapsed to
`""` before the filter, which does not change the surviving values). -/
def presentBuyers (purchases : List RaffleActivity) : List String :=
  (purchases.map (fun a => a.buyer.getD "")).filter (fun s => s != "")

/-- Pure core of `getPlatformStats` (lines 536-570). The `raffleCreations`
list in the source is computed but never used, so it is omitted here. -/
def getPlatformStats (activities : List RaffleActivity) : RaffleStats :=
  let ticketPurchases := activities.filter (fun a => a.type == ActivityType.ticket_purchase)
  let raffleFinalizations := activities.filter (fun a => a.type == ActivityType.raffle_finalized)
  let uniqueBuyers := distinctList (presentBuyers ticketPurchases)
  let uniqueRaffles := distinctList (activities.map (fun a => a.raffleId))
  let completedRaffles := distinctList (raffleFinalizations.map (fun a => a.raffleId))
  let totalTickets := ticketPurchases.foldl (fun s a => s + a.ticketCount.getD 0) 0
  let totalVolume := ticketPurchases.foldl (fun s a => s + a.totalPaid.getD 0) 0
  { totalTicketsSold := totalTickets,
    totalVolume := totalVolume,
    uniqueParticipants := uniqueBuyers.length,
    averageTicketsPerUser :=
      if uniqueBuyers.length > 0 then totalTickets / (uniqueBuyers.length : ℚ) else 0,
    totalRaffles := (uniqueRaffles.length : Int),
    activeRaffles := (uniqueRaffles.length : Int) - (completedRaffles.length : Int),
    completedRaffles := (completedRaffles.length : Int) }

/-- Pure core of `getRaffleStats` (lines 575-606). -/
def getRaffleStats (raffleId : Int) (activities : List RaffleActivity) : RaffleStats :=
  let raffleActivities := activities.filter (fun a => a.raffleId == raffleId)
  let ticketPurchases := raffleActivities.filter (fun a => a.type == ActivityType.ticket_purchase)
  let isFinalized := raffleActivities.any (fun a => a.type == ActivityType.raffle_finalized)
  let uniqueBuyers := distinctList (presentBuyers ticketPurchases)
  let totalTickets := ticketPurchases.foldl (fun s a => s + a.ticketCount.getD 0) 0
  let totalVolume := ticketPurchases.foldl (fun s a => s + a.totalPaid.getD 0) 0
  { totalTicketsSold := totalTickets,
    totalVolume := totalVolume,
    uniqueParticipants := uniqueBuyers.length,
    averageTicketsPerUser :=
      if uniqueBuyers.length > 0 then totalTickets / (uniqueBuyers.length : ℚ) else 0,
    totalRaffles := 1,
    activeRaffles := if isFinalized then 0 else 1,
    completedRaffles := if isFinalized then 1 else 0 }

/-- Persisted analytics row (`interface UserActivity` in `supabase.ts`,
written by `analyticsService.ts`). -/
structure UserActivity where
  user_address : String
  raffle_id : Int
  activity_type : ActivityType
  ticket_count : Option ℚ
  total_paid : Option ℚ
  prize_amount : Option ℚ
  transaction_version : String
  block_height : Int
  timestamp : String
  deriving DecidableEq, Repr

/-- The row projection of `trackActivitiesBatch`:
`user_address: activity.buyer || activity.creator || activity.winner || ''`. -/
def toUserActivity (activity : RaffleActivity) : UserActivity :=
  { user_address := jsStr3 activity.buyer activity.creator activity.winner,
    raffle_id := activity.raffleId,
    activity_type := activity.type,
    ticket_count := activity.ticketCount,
    total_paid := activity.totalPaid,
    prize_amount := activity.prizeAmount,
    transaction_version := activity.transactionVersion,
    block_height := activity.blockHeight,
    timestamp := activity.timestamp }

/-- Postgres `upsert(rows, { onConflict: 'transaction_version',
ignoreDuplicates: true })`: rows are inserted in order and a row whose
`transaction_version` already exists (in the table or earlier in the same
batch) is skipped. -/
def upsertIgnoreDuplicates (table : List UserActivity) (rows : List UserActivity) :
    List UserActivity :=
  rows.foldl
    (fun t r =>
      if t.any (fun x => x.transaction_version == r.transaction_version) then t
      else t ++ [r])
    table

/-- `trackActivitiesBatch` from `analyticsService` (`indexerService.ts` lines
371-404): a no-op when analytics is disabled (missing flag or client) or the
batch is empty, otherwise an idempotent upsert keyed on
`transaction_version`. The successful write path is modelled; a returned
database error only logs and leaves the table unchanged. -/
def trackActivitiesBatch (analyticsEnabled : Bool) (table : List UserActivity)
    (activities : List RaffleActivity) : List UserActivity :=
  if !analyticsEnabled || activities.isEmpty then table
  else upsertIgnoreDuplicates table (activities.map toUserActivity)

/-- Number of persisted rows carrying a given `transaction_version`. -/
def countForVersion (table : List UserActivity) (v : String) : Nat :=
  (table.filter (fun r => r.transaction_version == v)).length

/-- State of the notification trigger pipeline: the Redis keys of processed
transactions (`processed_tx:*`) and the log of executed notification side
effects. TTL expiry of markers is not modelled (no claim depends on it). -/
structure NotifState where
  processed : List String
  effects : List String
  deriving DecidableEq, Repr

/-- Key construction `PROCESSED_TX_PREFIX + txVersion`. -/
def processedKey (txVersion : String) : String :=
  "processed_tx:" ++ txVersion

/-- `isTransactionProcessed`: `cacheService.exists(key)`. -/
def isTransactionProcessed (s : NotifState) (txVersion : String) : Bool :=
  s.processed.contains (processedKey txVersion)

/-- `markTransactionProcessed`: `cacheService.set(key, {processed:true}, ttl)`. -/
def markTransactionProcessed (s : NotifState) (txVersion : String) : NotifState :=
  { s with processed := s.processed ++ [processedKey txVersion] }

/-- Outcome of the per-type notification handler
(`handleTicketPurchase` / `handleRaffleCreated` / `handleRaffleFinalized`):
either it completes after emitting some side effects, or it raises after
emitting a (possibly empty) prefix of them. -/
inductive HandlerResult where
  | ok (effects : List String)
  | raised (effects : List String)
  deriving DecidableEq, Repr

/-- `processActivityNotifications` (lines 29-56): skip when the marker exists;
otherwise run the handler inside `try`, mark processed only after it returns,
and on a raised error just log (the marker stays unset). The type-dispatch
`switch` is abstracted into the `handler` argument. -/
def processActivityNotifications (handler : RaffleActivity → HandlerResult)
    (activity : RaffleActivity) (s : NotifState) : NotifState :=
  if isTransactionProcessed s activity.transactionVersion then s
  else
    match handler activity with
    | HandlerResult.ok effs =>
      markTransactionProcessed { s with effects := s.effects ++ effs }
        activity.transactionVersion
    | HandlerResult.raised effs =>
      { s with effects := s.effects ++ effs }

/-- JSON response envelope of the read endpoints. Fields that an endpoint does
not emit are `none`. -/
structure ApiEnvelope (α : Type) where
  success : Bool
  data : Option α := none
  count : Option Nat := none
  errorMsg : Option String := none
  cached : Option Bool := none
  source : Option String := none
  deriving DecidableEq, Repr

/-- Response of `GET /api/activity/global` in `apiRoutes` (`indexerService.ts`
lines 548-568): `{success, data, count}` on success, `{success:false, error}`
on a caught error. -/
def activityGlobalResponse (result : Except Unit (List RaffleActivity)) :
    ApiEnvelope (List RaffleActivity) :=
  match result with
  | Except.ok activities =>
    { success := true, data := some activities, count := some activities.length }
  | Except.error _ =>
    { success := false, errorMsg := some "Failed to fetch global activity" }

/-- Response of `GET /api/leaderboard/global` (lines 635-649). -/
def leaderboardGlobalResponse (result : Except Unit (List LeaderboardEntry)) :
    ApiEnvelope (List LeaderboardEntry) :=
  match result with
  | Except.ok leaderboard =>
    { success := true, data := some leaderboard, count := some leaderboard.length }
  | Except.error _ =>
    { success := false, errorMsg := some "Failed to fetch global leaderboard" }

/-- Response of `GET /api/stats/platform` (lines 686-698). -/
def statsPlatformResponse (result : Except Unit RaffleStats) : ApiEnvelope RaffleStats :=
  match result with
  | Except.ok stats => { success := true, data := some stats }
  | Except.error _ => { success := false, errorMsg := some "Failed to fetch platform stats" }

/-- Response of `GET /api/raffle-activity/leaderboard/:raffleId` in
`raffleRoutes.ts` (lines 118-169), the one multi-tier endpoint: Redis hit,
else fresh Supabase hit, else the computed placeholder. Payloads are opaque
serialized values. -/
def raffleLeaderboardResponse (redisCache : Option String) (supabaseCache : Option String) :
    ApiEnvelope String :=
  match redisCache with
  | some v => { success := true, data := some v, cached := some true, source := some "redis" }
  | none =>
    match supabaseCache with
    | some v =>
      { success := true, data := some v, cached := some true, source := some "supabase" }
    | none =>
      { success := true, data := some "Leaderboard computation not implemented yet",
        cached := some false, source := some "computed" }

/-- Association-list lookup for the global `userStats` map. -/
def lookupAgg : List (String × UserAgg) → String → Option UserAgg
  | [], _ => none
  | (k, v) :: rest, b => if k = b then some v else lookupAgg rest b

/-- Lookup with the zero accumulator as default, mirroring
`userStats.get(buyer) || { tickets: 0, spent: 0, raffles: new Set() }`. -/
def lookupAggD (m : List (String × UserAgg)) (b : String) : UserAgg :=
  (lookupAgg m b).getD emptyAgg

/-- Association-list lookup for the raffle-specific `userStats` map. -/
def lookupAgg2 : List (String × UserAgg2) → String → Option UserAgg2
  | [], _ => none
  | (k, v) :: rest, b => if k = b then some v else lookupAgg2 rest b

/-- Lookup with the zero accumulator as default. -/
def lookupAgg2D (m : List (String × UserAgg2)) (b : String) : UserAgg2 :=
  (lookupAgg2 m b).getD emptyAgg2

/-- The ticket-purchase records of one buyer, in input order: the reference
value against which a leaderboard entry is checked. -/
def purchasesOf (activities : List RaffleActivity) (addr : String) : List RaffleActivity :=
  (activities.filter isPurchaseWithBuyer).filter (fun a => buyerKey a == addr)

/-- Reference sum of `ticketCount || 0` over one buyer's purchases. -/
def groupTickets (activities : List RaffleActivity) (addr : String) : ℚ :=
  (purchasesOf activities addr).foldl (fun s a => s + a.ticketCount.getD 0) 0

/-- Reference sum of `totalPaid || 0` over one buyer's purchases. -/
def groupSpent (activities : List RaffleActivity) (addr : String) : ℚ :=
  (purchasesOf activities addr).foldl (fun s a => s + a.totalPaid.getD 0) 0

/-- Reference list of distinct raffles touched by one buyer's purchases. -/
def groupRaffles (activities : List RaffleActivity) (addr : String) : List Int :=
  (purchasesOf activities addr).foldl (fun rs a => addRaffle rs a.raffleId) []

/-- One buyer's purchase records restricted to one raffle, in input order. -/
def purchasesOfForRaffle (raffleId : Int) (activities : List RaffleActivity) (addr : String) :
    List RaffleActivity :=
  (activities.filter (isPurchaseForRaffle raffleId)).filter (fun a => buyerKey a == addr)

/-- Reference ticket sum for the raffle-specific leaderboard. -/
def groupTicketsForRaffle (raffleId : Int) (activities : List RaffleActivity) (addr : String) : ℚ :=
  (purchasesOfForRaffle raffleId activities addr).foldl (fun s a => s + a.ticketCount.getD 0) 0

/-- Reference spend sum for the raffle-specific leaderboard. -/
def groupSpentForRaffle (raffleId : Int) (activities : List RaffleActivity) (addr : String) : ℚ :=
  (purchasesOfForRaffle raffleId activities addr).foldl (fun s a => s + a.totalPaid.getD 0) 0

/-- Concrete activity batch used to instantiate the universally quantified
theorems: two buyers, three purchases over two raffles. -/
def demoActivities : List RaffleActivity :=
  [{ type := ActivityType.ticket_purchase, buyer := some "0xA", raffleId := 1,
     ticketCount := some 3, totalPaid := some (3 / 2), transactionVersion := "1" },
   { type := ActivityType.ticket_purchase, buyer := some "0xB", raffleId := 1,
     ticketCount := some 6, totalPaid := some 3, transactionVersion := "2" },
   { type := ActivityType.ticket_purchase, buyer := some "0xA", raffleId := 2,
     ticketCount := some 2, totalPaid := some 1, transactionVersion := "3" }]

/-- A purchase with a negative `ticketCount`/`totalPaid`, which the JS `|| 0`
guard does not replace. -/
def negActivity : RaffleActivity :=
  { type := ActivityType.ticket_purchase, buyer := some "0xA", raffleId := 1,
    ticketCount := some (-5), totalPaid := some (-2), transactionVersion := "9" }

/-- A raw event with no type tag at all: `eventType` resolves to `undefined`
and every `includes` check is falsy. -/
def malformedRawEvent : RawEvent :=
  { type := none, indexed_type := none, data := {}, transaction_version := "7",
    transaction_block_height := 1 }

/-- A well-formed buy event: 3 tickets for 150000000 octas (1.5 MOVE). -/
def validRawEvent : RawEvent :=
  { type := some "0x1::draw_v5::BuyTicketEvent",
    data := { buyer := some "0xA", raffle_id := some 5, ticket_count := some 3,
              total_paid := some 150000000 },
    transaction_version := "8", transaction_block_height := 2 }

/-- The parse of `validRawEvent`. -/
def validParsedActivity : RaffleActivity :=
  { type := ActivityType.ticket_purchase, buyer := some "0xA", raffleId := 5,
    ticketCount := some 3, totalPaid := some (3 / 2), timestamp := "",
    transactionVersion := "8", blockHeight := 2 }

/-- A handler that completes after emitting one notification. -/
def demoHandlerOk : RaffleActivity → HandlerResult :=
  fun _ => HandlerResult.ok ["notify-creator"]

/-- A handler that raises before emitting anything. -/
def demoHandlerRaised : RaffleActivity → HandlerResult :=
  fun _ => HandlerResult.raised []

/-- Concrete activity for the dedup-ledger theorems. -/
def demoActivity : RaffleActivity :=
  { type := ActivityType.ticket_purchase, buyer := some "0xA", raffleId := 1,
    ticketCount := some 1, totalPaid := some 1, transactionVersion := "42" }

/-- A purchase whose `ticketCount` and `totalPaid` are absent. -/
def absentActivity : RaffleActivity :=
  { type := ActivityType.ticket_purchase, buyer := some "0xC", raffleId := 3,
    transactionVersion := "10" }

theorem mem_insertDesc {x e : LeaderboardEntry} {l : List LeaderboardEntry} :
    x ∈ insertDesc e l ↔ x = e ∨ x ∈ l := by
  induction l with
  | nil => simp [insertDesc]
  | cons y ys ih =>
    simp only [insertDesc]
    split
    · simp [List.mem_cons]
    · simp only [List.mem_cons, ih]
      tauto

theorem pairwise_insertDesc {e : LeaderboardEntry} {l : List LeaderboardEntry}
    (h : l.Pairwise (fun x y => y.totalTickets ≤ x.totalTickets)) :
    (insertDesc e l).Pairwise (fun x y => y.totalTickets ≤ x.totalTickets) := by
  induction l with
  | nil => simp [insertDesc]
  | cons y ys ih =>
    rcases List.pairwise_cons.mp h with ⟨hy, hys⟩
    simp only [insertDesc]
    split
    · rename_i hcmp
      refine List.Pairwise.cons ?_ h
      intro z hz
      rcases List.mem_cons.mp hz with rfl | hz
      · exact le_of_lt hcmp
      · exact (hy z hz).trans (le_of_lt hcmp)
    · rename_i hcmp
      refine List.Pairwise.cons ?_ (ih hys)
      intro z hz
      rcases mem_insertDesc.mp hz with rfl | hz
      · exact not_lt.mp hcmp
      · exact hy z hz

theorem pairwise_sortDesc (l : List LeaderboardEntry) :
    (sortDesc l).Pairwise (fun x y => y.totalTickets ≤ x.totalTickets) := by
  induction l with
  | nil => simp [sortDesc]
  | cons x xs ih => exact pairwise_insertDesc ih

theorem mem_sortDesc {x : LeaderboardEntry} {l : List LeaderboardEntry} :
    x ∈ sortDesc l ↔ x ∈ l := by
  induction l with
  | nil => simp [sortDesc]
  | cons y ys ih =>
    simp only [sortDesc, mem_insertDesc, List.mem_cons, ih]

theorem length_assignRanksFrom (l : List LeaderboardEntry) :
    ∀ n, (assignRanksFrom n l).length = l.length := by
  induction l with
  | nil => intro n; rfl
  | cons e es ih => intro n; simp [assignRanksFrom, ih]

theorem get_assignRanksFrom (l : List LeaderboardEntry) :
    ∀ (n i : Nat) (h1 : i < (assignRanksFrom n l).length) (h2 : i < l.length),
      (assignRanksFrom n l).get ⟨i, h1⟩ = { l.get ⟨i, h2⟩ with rank := n + i + 1 } := by
  induction l with
  | nil => intro n i h1 h2; exact absurd h2 (Nat.not_lt_zero i)
  | cons e es ih =>
    intro n i h1 h2
    cases i with
    | zero => rfl
    | succ j =>
      have hj1 : j < (assignRanksFrom (n + 1) es).length := by
        have := h1
        simp only [assignRanksFrom, List.length_cons] at this
        omega
      have hj2 : j < es.length := Nat.lt_of_succ_lt_succ h2
      show (assignRanksFrom (n + 1) es).get ⟨j, hj1⟩ = _
      rw [ih (n + 1) j hj1 hj2]
      have harith : n + 1 + j + 1 = n + (j + 1) + 1 := by omega
      rw [harith]
      rfl

theorem mem_assignRanksFrom {x : LeaderboardEntry} (l : List LeaderboardEntry) :
    ∀ n, x ∈ assignRanksFrom n l →
      ∃ y ∈ l, x.address = y.address ∧ x.totalTickets = y.totalTickets
        ∧ x.totalSpent = y.totalSpent ∧ x.raffleCount = y.raffleCount := by
  induction l with
  | nil => intro n h; cases h
  | cons e es ih =>
    intro n h
    rcases List.mem_cons.mp h with rfl | h
    · exact ⟨e, List.mem_cons_self e es, rfl, rfl, rfl, rfl⟩
    · rcases ih (n + 1) h with ⟨y, hy, hf⟩
      exact ⟨y, List.mem_cons_of_mem e hy, hf⟩

theorem lookupAggD_upsertUser (m : List (String × UserAgg)) (b c : String) (a : RaffleActivity) :
    lookupAggD (upsertUser m b a) c
      = if c = b then applyPurchase (lookupAggD m c) a else lookupAggD m c := by
  induction m with
  | nil =>
    by_cases h : c = b
    · subst h; simp [upsertUser, lookupAggD, lookupAgg]
    · have hbc : b ≠ c := Ne.symm h
      simp [upsertUser, lookupAggD, lookupAgg, h, hbc]
  | cons p rest ih =>
    obtain ⟨k, v⟩ := p
    by_cases hkb : k = b
    · subst hkb
      by_cases hck : c = k
      · subst hck; simp [upsertUser, lookupAggD, lookupAgg]
      · have hkc : k ≠ c := Ne.symm hck
        simp [upsertUser, lookupAggD, lookupAgg, hck, hkc]
    · by_cases hkc : k = c
      · subst hkc
        have hcb : ¬ k = b := hkb
        simp [upsertUser, lookupAggD, lookupAgg, hkb, hcb]
      · simp only [upsertUser, if_neg hkb]
        simp only [lookupAggD, lookupAgg, if_neg hkc]
        exact ih

theorem lookupAggD_foldl (l : List RaffleActivity) :
    ∀ (m : List (String × UserAgg)) (c : String),
      lookupAggD (l.foldl (fun m a => upsertUser m (buyerKey a) a) m) c
        = l.foldl (fun u a => if buyerKey a = c then applyPurchase u a else u) (lookupAggD m c) := by
  induction l with
  | nil => intro m c; rfl
  | cons a l ih =>
    intro m c
    simp only [List.foldl_cons]
    rw [ih]
    congr 1
    rw [lookupAggD_upsertUser]
    by_cases h : buyerKey a = c
    · rw [if_pos h.symm, if_pos h]
    · rw [if_neg (fun hh => h hh.symm), if_neg h]

theorem foldlIf_tickets (l : List RaffleActivity) (c : String) :
    ∀ u : UserAgg,
      (l.foldl (fun u a => if buyerKey a = c then applyPurchase u a else u) u).tickets
        = (l.filter (fun a => buyerKey a == c)).foldl
            (fun s a => s + a.ticketCount.getD 0) u.tickets := by
  induction l with
  | nil => intro u; rfl
  | cons a l ih =>
    intro u
    by_cases h : buyerKey a = c
    · have hb : (buyerKey a == c) = true := beq_iff_eq.mpr h
      simp only [List.foldl_cons, List.filter_cons, hb, if_pos h, if_true]
      rw [ih]
      rfl
    · have hb : (buyerKey a == c) = false := by
        simpa using h
      simp only [List.foldl_cons, List.filter_cons, hb, if_neg h, Bool.false_eq_true, if_false]
      exact ih u

theorem foldlIf_spent (l : List RaffleActivity) (c : String) :
    ∀ u : UserAgg,
      (l.foldl (fun u a => if buyerKey a = c then applyPurchase u a else u) u).spent
        = (l.filter (fun a => buyerKey a == c)).foldl
            (fun s a => s + a.totalPaid.getD 0) u.spent := by
  induction l with
  | nil => intro u; rfl
  | cons a l ih =>
    intro u
    by_cases h : buyerKey a = c
    · have hb : (buyerKey a == c) = true := beq_iff_eq.mpr h
      simp only [List.foldl_cons, List.filter_cons, hb, if_pos h, if_true]
      rw [ih]
      rfl
    · have hb : (buyerKey a == c) = false := by
        simpa using h
      simp only [List.foldl_cons, List.filter_cons, hb, if_neg h, Bool.false_eq_true, if_false]
      exact ih u

theorem foldlIf_raffles (l : List RaffleActivity) (c : String) :
    ∀ u : UserAgg,
      (l.foldl (fun u a => if buyerKey a = c then applyPurchase u a else u) u).raffles
        = (l.filter (fun a => buyerKey a == c)).foldl
            (fun rs a => addRaffle rs a.raffleId) u.raffles := by
  induction l with
  | nil => intro u; rfl
  | cons a l ih =>
    intro u
    by_cases h : buyerKey a = c
    · have hb : (buyerKey a == c) = true := beq_iff_eq.mpr h
      simp only [List.foldl_cons, List.filter_cons, hb, if_pos h, if_true]
      rw [ih]
      rfl
    · have hb : (buyerKey a == c) = false := by
        simpa using h
      simp only [List.foldl_cons, List.filter_cons, hb, if_neg h, Bool.false_eq_true, if_false]
      exact ih u

theorem keys_upsertUser (m : List (String × UserAgg)) (b : String) (a : RaffleActivity) :
    (upsertUser m b a).map Prod.fst
      = if b ∈ m.map Prod.fst then m.map Prod.fst else m.map Prod.fst ++ [b] := by
  induction m with
  | nil => simp [upsertUser]
  | cons p rest ih =>
    obtain ⟨k, v⟩ := p
    by_cases hkb : k = b
    · subst hkb
      simp [upsertUser]
    · have hbk : ¬ b = k := fun hh => hkb hh.symm
      by_cases hb : b ∈ rest.map Prod.fst
      · simp [upsertUser, hkb, ih, hb, hbk]
      · simp [upsertUser, hkb, ih, hb, hbk]

theorem nodupKeys_foldl (l : List RaffleActivity) :
    ∀ m : List (String × UserAgg), (m.map Prod.fst).Nodup →
      ((l.foldl (fun m a => upsertUser m (buyerKey a) a) m).map Prod.fst).Nodup := by
  induction l with
  | nil => intro m hm; exact hm
  | cons a l ih =>
    intro m hm
    simp only [List.foldl_cons]
    refine ih _ ?_
    rw [keys_upsertUser]
    by_cases hb : buyerKey a ∈ m.map Prod.fst
    · simpa [hb] using hm
    · simp [hb, List.nodup_append, hm]

theorem lookupAgg_of_mem {m : List (String × UserAgg)} {k : String} {u : UserAgg}
    (hm : (m.map Prod.fst).Nodup) (h : (k, u) ∈ m) : lookupAgg m k = some u := by
  induction m with
  | nil => cases h
  | cons p rest ih =>
    obtain ⟨k0, v0⟩ := p
    rcases List.mem_cons.mp h with heq | hrest
    · rw [Prod.mk.injEq] at heq
      obtain ⟨hk, hv⟩ := heq
      subst hk; subst hv
      simp [lookupAgg]
    · by_cases hk : k0 = k
      · exfalso
        subst hk
        have hmem : k0 ∈ rest.map Prod.fst := by
          exact List.mem_map.mpr ⟨(k0, u), hrest, rfl⟩
        exact (List.nodup_cons.mp (by simpa using hm)).1 hmem
      · simp only [lookupAgg, if_neg hk]
        exact ih (List.nodup_cons.mp (by simpa using hm)).2 hrest

theorem key_origin (l : List RaffleActivity) :
    ∀ (m : List (String × UserAgg)) (p : String × UserAgg),
      p ∈ l.foldl (fun m a => upsertUser m (buyerKey a) a) m →
        p.1 ∈ m.map Prod.fst ∨ ∃ a ∈ l, buyerKey a = p.1 := by
  induction l with
  | nil =>
    intro m p hp
    exact Or.inl (List.mem_map.mpr ⟨p, hp, rfl⟩)
  | cons a l ih =>
    intro m p hp
    simp only [List.foldl_cons] at hp
    rcases ih _ p hp with hkey | ⟨a2, ha2, hb2⟩
    · rw [keys_upsertUser] at hkey
      by_cases hb : buyerKey a ∈ m.map Prod.fst
      · rw [if_pos hb] at hkey
        exact Or.inl hkey
      · rw [if_neg hb] at hkey
        rcases List.mem_append.mp hkey with hkey | hkey
        · exact Or.inl hkey
        · exact Or.inr ⟨a, List.mem_cons_self a l, (List.mem_singleton.mp hkey).symm⟩
    · exact Or.inr ⟨a2, List.mem_cons_of_mem a ha2, hb2⟩

theorem aggregateUsers_mem_value {activities : List RaffleActivity} {k : String} {u : UserAgg}
    (h : (k, u) ∈ aggregateUsers activities) :
    u.tickets = groupTickets activities k
      ∧ u.spent = groupSpent activities k
      ∧ u.raffles = groupRaffles activities k := by
  have hnodup : ((aggregateUsers activities).map Prod.fst).Nodup := by
    have := nodupKeys_foldl (activities.filter isPurchaseWithBuyer) [] (by simp)
    simpa [aggregateUsers] using this
  have hlook : lookupAgg (aggregateUsers activities) k = some u :=
    lookupAgg_of_mem hnodup h
  have hD : lookupAggD (aggregateUsers activities) k = u := by
    simp [lookupAggD, hlook]
  have hfold := lookupAggD_foldl (activities.filter isPurchaseWithBuyer) [] k
  have hzero : lookupAggD [] k = emptyAgg := rfl
  rw [hzero] at hfold
  have hu : u = (activities.filter isPurchaseWithBuyer).foldl
      (fun v a => if buyerKey a = k then applyPurchase v a else v) emptyAgg := by
    rw [← hD]
    simpa [aggregateUsers] using hfold
  refine ⟨?_, ?_, ?_⟩
  · rw [hu, foldlIf_tickets]
    rfl
  · rw [hu, foldlIf_spent]
    rfl
  · rw [hu, foldlIf_raffles]
    rfl

theorem aggregateUsers_mem_origin {activities : List RaffleActivity} {k : String} {u : UserAgg}
    (h : (k, u) ∈ aggregateUsers activities) :
    ∃ a ∈ activities, isPurchaseWithBuyer a = true ∧ buyerKey a = k := by
  have := key_origin (activities.filter isPurchaseWithBuyer) [] (k, u)
      (by simpa [aggregateUsers] using h)
  rcases this with hkey | ⟨a, ha, hb⟩
  · simp at hkey
  · rcases List.mem_filter.mp ha with ⟨hmem, hpur⟩
    exact ⟨a, hmem, hpur, hb⟩

theorem lookupAgg2D_upsertUser2 (m : List (String × UserAgg2)) (b c : String) (a : RaffleActivity) :
    lookupAgg2D (upsertUser2 m b a) c
      = if c = b then applyPurchase2 (lookupAgg2D m c) a else lookupAgg2D m c := by
  induction m with
  | nil =>
    by_cases h : c = b
    · subst h; simp [upsertUser2, lookupAgg2D, lookupAgg2]
    · have hbc : b ≠ c := Ne.symm h
      simp [upsertUser2, lookupAgg2D, lookupAgg2, h, hbc]
  | cons p rest ih =>
    obtain ⟨k, v⟩ := p
    by_cases hkb : k = b
    · subst hkb
      by_cases hck : c = k
      · subst hck; simp [upsertUser2, lookupAgg2D, lookupAgg2]
      · have hkc : k ≠ c := Ne.symm hck
        simp [upsertUser2, lookupAgg2D, lookupAgg2, hck, hkc]
    · by_cases hkc : k = c
      · subst hkc
        have hcb : ¬ k = b := hkb
        simp [upsertUser2, lookupAgg2D, lookupAgg2, hkb, hcb]
      · simp only [upsertUser2, if_neg hkb]
        simp only [lookupAgg2D, lookupAgg2, if_neg hkc]
        exact ih

theorem lookupAgg2D_foldl (l : List RaffleActivity) :
    ∀ (m : List (String × UserAgg2)) (c : String),
      lookupAgg2D (l.foldl (fun m a => upsertUser2 m (buyerKey a) a) m) c
        = l.foldl (fun u a => if buyerKey a = c then applyPurchase2 u a else u) (lookupAgg2D m c) := by
  induction l with
  | nil => intro m c; rfl
  | cons a l ih =>
    intro m c
    simp only [List.foldl_cons]
    rw [ih]
    congr 1
    rw [lookupAgg2D_upsertUser2]
    by_cases h : buyerKey a = c
    · rw [if_pos h.symm, if_pos h]
    · rw [if_neg (fun hh => h hh.symm), if_neg h]

theorem foldlIf2_tickets (l : List RaffleActivity) (c : String) :
    ∀ u : UserAgg2,
      (l.foldl (fun u a => if buyerKey a = c then applyPurchase2 u a else u) u).tickets
        = (l.filter (fun a => buyerKey a == c)).foldl
            (fun s a => s + a.ticketCount.getD 0) u.tickets := by
  induction l with
  | nil => intro u; rfl
  | cons a l ih =>
    intro u
    by_cases h : buyerKey a = c
    · have hb : (buyerKey a == c) = true := beq_iff_eq.mpr h
      simp only [List.foldl_cons, List.filter_cons, hb, if_pos h, if_true]
      rw [ih]
      rfl
    · have hb : (buyerKey a == c) = false := by
        simpa using h
      simp only [List.foldl_cons, List.filter_cons, hb, if_neg h, Bool.false_eq_true, if_false]
      exact ih u

theorem foldlIf2_spent (l : List RaffleActivity) (c : String) :
    ∀ u : UserAgg2,
      (l.foldl (fun u a => if buyerKey a = c then applyPurchase2 u a else u) u).spent
        = (l.filter (fun a => buyerKey a == c)).foldl
            (fun s a => s + a.totalPaid.getD 0) u.spent := by
  induction l with
  | nil => intro u; rfl
  | cons a l ih =>
    intro u
    by_cases h : buyerKey a = c
    · have hb : (buyerKey a == c) = true := beq_iff_eq.mpr h
      simp only [List.foldl_cons, List.filter_cons, hb, if_pos h, if_true]
      rw [ih]
      rfl
    · have hb : (buyerKey a == c) = false := by
        simpa using h
      simp only [List.foldl_cons, List.filter_cons, hb, if_neg h, Bool.false_eq_true, if_false]
      exact ih u

theorem keys_upsertUser2 (m : List (String × UserAgg2)) (b : String) (a : RaffleActivity) :
    (upsertUser2 m b a).map Prod.fst
      = if b ∈ m.map Prod.fst then m.map Prod.fst else m.map Prod.fst ++ [b] := by
  induction m with
  | nil => simp [upsertUser2]
  | cons p rest ih =>
    obtain ⟨k, v⟩ := p
    by_cases hkb : k = b
    · subst hkb
      simp [upsertUser2]
    · have hbk : ¬ b = k := fun hh => hkb hh.symm
      by_cases hb : b ∈ rest.map Prod.fst
      · simp [upsertUser2, hkb, ih, hb, hbk]
      · simp [upsertUser2, hkb, ih, hb, hbk]

theorem nodupKeys2_foldl (l : List RaffleActivity) :
    ∀ m : List (String × UserAgg2), (m.map Prod.fst).Nodup →
      ((l.foldl (fun m a => upsertUser2 m (buyerKey a) a) m).map Prod.fst).Nodup := by
  induction l with
  | nil => intro m hm; exact hm
  | cons a l ih =>
    intro m hm
    simp only [List.foldl_cons]
    refine ih _ ?_
    rw [keys_upsertUser2]
    by_cases hb : buyerKey a ∈ m.map Prod.fst
    · simpa [hb] using hm
    · simp [hb, List.nodup_append, hm]

theorem lookupAgg2_of_mem {m : List (String × UserAgg2)} {k : String} {u : UserAgg2}
    (hm : (m.map Prod.fst).Nodup) (h : (k, u) ∈ m) : lookupAgg2 m k = some u := by
  induction m with
  | nil => cases h
  | cons p rest ih =>
    obtain ⟨k0, v0⟩ := p
    rcases List.mem_cons.mp h with heq | hrest
    · rw [Prod.mk.injEq] at heq
      obtain ⟨hk, hv⟩ := heq
      subst hk; subst hv
      simp [lookupAgg2]
    · by_cases hk : k0 = k
      · exfalso
        subst hk
        have hmem : k0 ∈ rest.map Prod.fst := by
          exact List.mem_map.mpr ⟨(k0, u), hrest, rfl⟩
        exact (List.nodup_cons.mp (by simpa using hm)).1 hmem
      · simp only [lookupAgg2, if_neg hk]
        exact ih (List.nodup_cons.mp (by simpa using hm)).2 hrest

theorem key_origin2 (l : List RaffleActivity) :
    ∀ (m : List (String × UserAgg2)) (p : String × UserAgg2),
      p ∈ l.foldl (fun m a => upsertUser2 m (buyerKey a) a) m →
        p.1 ∈ m.map Prod.fst ∨ ∃ a ∈ l, buyerKey a = p.1 := by
  induction l with
  | nil =>
    intro m p hp
    exact Or.inl (List.mem_map.mpr ⟨p, hp, rfl⟩)
  | cons a l ih =>
    intro m p hp
    simp only [List.foldl_cons] at hp
    rcases ih _ p hp with hkey | ⟨a2, ha2, hb2⟩
    · rw [keys_upsertUser2] at hkey
      by_cases hb : buyerKey a ∈ m.map Prod.fst
      · rw [if_pos hb] at hkey
        exact Or.inl hkey
      · rw [if_neg hb] at hkey
        rcases List.mem_append.mp hkey with hkey | hkey
        · exact Or.inl hkey
        · exact Or.inr ⟨a, List.mem_cons_self a l, (List.mem_singleton.mp hkey).symm⟩
    · exact Or.inr ⟨a2, List.mem_cons_of_mem a ha2, hb2⟩

theorem aggregateUsersForRaffle_mem_value {raffleId : Int} {activities : List RaffleActivity}
    {k : String} {u : UserAgg2} (h : (k, u) ∈ aggregateUsersForRaffle raffleId activities) :
    u.tickets = groupTicketsForRaffle raffleId activities k
      ∧ u.spent = groupSpentForRaffle raffleId activities k := by
  have hnodup : ((aggregateUsersForRaffle raffleId activities).map Prod.fst).Nodup := by
    have := nodupKeys2_foldl (activities.filter (isPurchaseForRaffle raffleId)) [] (by simp)
    simpa [aggregateUsersForRaffle] using this
  have hlook : lookupAgg2 (aggregateUsersForRaffle raffleId activities) k = some u :=
    lookupAgg2_of_mem hnodup h
  have hD : lookupAgg2D (aggregateUsersForRaffle raffleId activities) k = u := by
    simp [lookupAgg2D, hlook]
  have hfold := lookupAgg2D_foldl (activities.filter (isPurchaseForRaffle raffleId)) [] k
  have hzero : lookupAgg2D [] k = emptyAgg2 := rfl
  rw [hzero] at hfold
  have hu : u = (activities.filter (isPurchaseForRaffle raffleId)).foldl
      (fun v a => if buyerKey a = k then applyPurchase2 v a else v) emptyAgg2 := by
    rw [← hD]
    simpa [aggregateUsersForRaffle] using hfold
  refine ⟨?_, ?_⟩
  · rw [hu, foldlIf2_tickets]
    rfl
  · rw [hu, foldlIf2_spent]
    rfl

theorem aggregateUsersForRaffle_mem_origin {raffleId : Int} {activities : List RaffleActivity}
    {k : String} {u : UserAgg2} (h : (k, u) ∈ aggregateUsersForRaffle raffleId activities) :
    ∃ a ∈ activities, isPurchaseForRaffle raffleId a = true ∧ buyerKey a = k := by
  have := key_origin2 (activities.filter (isPurchaseForRaffle raffleId)) [] (k, u)
      (by simpa [aggregateUsersForRaffle] using h)
  rcases this with hkey | ⟨a, ha, hb⟩
  · simp at hkey
  · rcases List.mem_filter.mp ha with ⟨hmem, hpur⟩
    exact ⟨a, hmem, hpur, hb⟩

theorem ranked_length (l : List LeaderboardEntry) (limit : Nat) :
    (assignRanksFrom 0 ((sortDesc l).take limit)).length ≤ limit := by
  rw [length_assignRanksFrom]
  exact List.length_take_le limit (sortDesc l)

theorem ranked_sorted (l : List LeaderboardEntry) (limit : Nat) :
    ∀ (i : Nat) (h : i + 1 < (assignRanksFrom 0 ((sortDesc l).take limit)).length),
      ((assignRanksFrom 0 ((sortDesc l).take limit)).get ⟨i + 1, h⟩).totalTickets
        ≤ ((assignRanksFrom 0 ((sortDesc l).take limit)).get
            ⟨i, Nat.lt_of_succ_lt h⟩).totalTickets := by
  intro i h
  have hlen : (assignRanksFrom 0 ((sortDesc l).take limit)).length
      = ((sortDesc l).take limit).length := length_assignRanksFrom _ 0
  have h1 : i + 1 < ((sortDesc l).take limit).length := hlen ▸ h
  have h0 : i < ((sortDesc l).take limit).length := Nat.lt_of_succ_lt h1
  rw [get_assignRanksFrom _ 0 (i + 1) h h1, get_assignRanksFrom _ 0 i (Nat.lt_of_succ_lt h) h0]
  have hpair : ((sortDesc l).take limit).Pairwise (fun x y => y.totalTickets ≤ x.totalTickets) :=
    (pairwise_sortDesc l).sublist (List.take_sublist limit (sortDesc l))
  have := (List.pairwise_iff_get.mp hpair) ⟨i, h0⟩ ⟨i + 1, h1⟩ (Nat.lt_succ_self i)
  exact this

theorem ranked_rank (l : List LeaderboardEntry) (limit : Nat) :
    ∀ (i : Nat) (h : i < (assignRanksFrom 0 ((sortDesc l).take limit)).length),
      ((assignRanksFrom 0 ((sortDesc l).take limit)).get ⟨i, h⟩).rank = i + 1 := by
  intro i h
  have hlen : (assignRanksFrom 0 ((sortDesc l).take limit)).length
      = ((sortDesc l).take limit).length := length_assignRanksFrom _ 0
  have h2 : i < ((sortDesc l).take limit).length := hlen ▸ h
  rw [get_assignRanksFrom _ 0 i h h2]
  simp

theorem ranked_mem (l : List LeaderboardEntry) (limit : Nat) :
    ∀ e ∈ assignRanksFrom 0 ((sortDesc l).take limit),
      ∃ y ∈ l, e.address = y.address ∧ e.totalTickets = y.totalTickets
        ∧ e.totalSpent = y.totalSpent ∧ e.raffleCount = y.raffleCount := by
  intro e he
  rcases mem_assignRanksFrom _ 0 he with ⟨y, hy, hf⟩
  exact ⟨y, mem_sortDesc.mp (List.mem_of_mem_take hy), hf⟩

/-- C1: every leaderboard computed by `getGlobalLeaderboard` (and
`getRaffleLeaderboard`) has length at most the requested limit, is sorted so
that the entry at position `i` has `totalTickets` at least that of position
`i + 1`, carries the 1-based rank `i + 1` at position `i` (assigned after the
sort), and each of its entries is the aggregate (ticket sum, spend sum,
distinct-raffle count) of the `ticket_purchase` records of one buyer that
actually occurs in the input. -/
theorem spec2_C1_leaderboard (activities : List RaffleActivity) (raffleId : Int) (limit : Nat) :
    ((getGlobalLeaderboard activities limit).length ≤ limit
      ∧ (∀ (i : Nat) (h : i + 1 < (getGlobalLeaderboard activities limit).length),
          ((getGlobalLeaderboard activities limit).get ⟨i + 1, h⟩).totalTickets
            ≤ ((getGlobalLeaderboard activities limit).get
                ⟨i, Nat.lt_of_succ_lt h⟩).totalTickets)
      ∧ (∀ (i : Nat) (h : i < (getGlobalLeaderboard activities limit).length),
          ((getGlobalLeaderboard activities limit).get ⟨i, h⟩).rank = i + 1)
      ∧ (∀ e ∈ getGlobalLeaderboard activities limit,
          (∃ a ∈ activities, isPurchaseWithBuyer a = true ∧ buyerKey a = e.address)
            ∧ e.totalTickets = groupTickets activities e.address
            ∧ e.totalSpent = groupSpent activities e.address
            ∧ e.raffleCount = (groupRaffles activities e.address).length))
    ∧ ((getRaffleLeaderboard raffleId activities limit).length ≤ limit
      ∧ (∀ (i : Nat) (h : i + 1 < (getRaffleLeaderboard raffleId activities limit).length),
          ((getRaffleLeaderboard raffleId activities limit).get ⟨i + 1, h⟩).totalTickets
            ≤ ((getRaffleLeaderboard raffleId activities limit).get
                ⟨i, Nat.lt_of_succ_lt h⟩).totalTickets)
      ∧ (∀ (i : Nat) (h : i < (getRaffleLeaderboard raffleId activities limit).length),
          ((getRaffleLeaderboard raffleId activities limit).get ⟨i, h⟩).rank = i + 1)
      ∧ (∀ e ∈ getRaffleLeaderboard raffleId activities limit,
          (∃ a ∈ activities, isPurchaseForRaffle raffleId a = true ∧ buyerKey a = e.address)
            ∧ e.totalTickets = groupTicketsForRaffle raffleId activities e.address
            ∧ e.totalSpent = groupSpentForRaffle raffleId activities e.address
            ∧ e.raffleCount = 1)) := by
  refine ⟨⟨?_, ?_, ?_, ?_⟩, ?_, ?_, ?_, ?_⟩
  · exact ranked_length (toEntries (aggregateUsers activities)) limit
  · exact ranked_sorted (toEntries (aggregateUsers activities)) limit
  · exact ranked_rank (toEntries (aggregateUsers activities)) limit
  · intro e he
    rcases ranked_mem (toEntries (aggregateUsers activities)) limit e he
      with ⟨y, hy, haddr, htk, hsp, hrc⟩
    rcases List.mem_map.mp hy with ⟨p, hp, hpe⟩
    obtain ⟨k, u⟩ := p
    subst hpe
    have hk : e.address = k := haddr
    have hval := aggregateUsers_mem_value hp
    refine ⟨?_, ?_, ?_, ?_⟩
    · rw [hk]; exact aggregateUsers_mem_origin hp
    · exact htk.trans (by rw [hk]; exact hval.1)
    · exact hsp.trans (by rw [hk]; exact hval.2.1)
    · refine hrc.trans ?_
      show u.raffles.length = (groupRaffles activities e.address).length
      rw [hk, hval.2.2]
  · exact ranked_length (toEntries2 (aggregateUsersForRaffle raffleId activities)) limit
  · exact ranked_sorted (toEntries2 (aggregateUsersForRaffle raffleId activities)) limit
  · exact ranked_rank (toEntries2 (aggregateUsersForRaffle raffleId activities)) limit
  · intro e he
    rcases ranked_mem (toEntries2 (aggregateUsersForRaffle raffleId activities)) limit e he
      with ⟨y, hy, haddr, htk, hsp, hrc⟩
    rcases List.mem_map.mp hy with ⟨p, hp, hpe⟩
    obtain ⟨k, u⟩ := p
    subst hpe
    have hk : e.address = k := haddr
    have hval := aggregateUsersForRaffle_mem_value hp
    refine ⟨?_, ?_, ?_, ?_⟩
    · rw [hk]; exact aggregateUsersForRaffle_mem_origin hp
    · exact htk.trans (by rw [hk]; exact hval.1)
    · exact hsp.trans (by rw [hk]; exact hval.2)
    · exact hrc

/-- C1 witness at a concrete input: the demo leaderboard has a second entry
whose ticket total does not exceed the first, and the first entry has rank 1. -/
theorem spec2_C1_witness :
    ∃ h : 0 + 1 < (getGlobalLeaderboard demoActivities 10).length,
      ((getGlobalLeaderboard demoActivities 10).get ⟨0 + 1, h⟩).totalTickets
          ≤ ((getGlobalLeaderboard demoActivities 10).get ⟨0, Nat.lt_of_succ_lt h⟩).totalTickets
        ∧ ((getGlobalLeaderboard demoActivities 10).get ⟨0, Nat.lt_of_succ_lt h⟩).rank = 0 + 1 := by
  have hlb : getGlobalLeaderboard demoActivities 10
      = [{ address := "0xB", totalTickets := 6, totalSpent := 3, raffleCount := 1, rank := 1 },
         { address := "0xA", totalTickets := 5, totalSpent := 5 / 2, raffleCount := 2, rank := 2 }] := by
    norm_num [getGlobalLeaderboard, aggregateUsers, demoActivities, isPurchaseWithBuyer, strTruthy,
      buyerKey, upsertUser, applyPurchase, emptyAgg, addRaffle, toEntries, sortDesc, insertDesc,
      assignRanksFrom]
  have hlt : 0 + 1 < (getGlobalLeaderboard demoActivities 10).length := by
    rw [hlb]
    decide
  exact ⟨hlt, (spec2_C1_leaderboard demoActivities 1 10).1.2.1 0 hlt,
    (spec2_C1_leaderboard demoActivities 1 10).1.2.2.1 0 (Nat.lt_of_succ_lt hlt)⟩

/-- C2: every platform stats snapshot satisfies
`activeRaffles + completedRaffles = totalRaffles`; the average is the ticket
sum divided by the participant count when the latter is positive and `0`
otherwise; and the empty input yields the all-zero snapshot. -/
theorem spec2_C2_stats (activities : List RaffleActivity) :
    (getPlatformStats activities).activeRaffles + (getPlatformStats activities).completedRaffles
        = (getPlatformStats activities).totalRaffles
    ∧ (getPlatformStats activities).averageTicketsPerUser
        = (if (getPlatformStats activities).uniqueParticipants = 0 then 0
           else (getPlatformStats activities).totalTicketsSold
                  / ((getPlatformStats activities).uniqueParticipants : ℚ))
    ∧ getPlatformStats []
        = { totalTicketsSold := 0, totalVolume := 0, uniqueParticipants := 0,
            averageTicketsPerUser := 0, totalRaffles := 0, activeRaffles := 0,
            completedRaffles := 0 } := by
  refine ⟨?_, ?_, ?_⟩
  · have h : (getPlatformStats activities).activeRaffles
        = (getPlatformStats activities).totalRaffles
            - (getPlatformStats activities).completedRaffles := rfl
    rw [h]
    ring
  · have h : (getPlatformStats activities).averageTicketsPerUser
        = if (getPlatformStats activities).uniqueParticipants > 0
          then (getPlatformStats activities).totalTicketsSold
                 / ((getPlatformStats activities).uniqueParticipants : ℚ)
          else 0 := rfl
    rw [h]
    rcases Nat.eq_zero_or_pos (getPlatformStats activities).uniqueParticipants with h0 | h0
    · rw [if_neg (by omega), if_pos h0]
    · rw [if_pos h0, if_neg (by omega)]
  · rfl

/-- C10: `getRaffleStats` always reports exactly one raffle: `totalRaffles`
is `1`; `completedRaffles` is `1` exactly when the input holds a
`raffle_finalized` record for the requested raffle (else `0`);
`activeRaffles` is its complement, so the two always sum to `1`; and a raffle
with no records at all is reported as one active raffle. -/
theorem spec2_C10_raffleStats (raffleId : Int) (activities : List RaffleActivity) :
    (getRaffleStats raffleId activities).totalRaffles = 1
    ∧ ((getRaffleStats raffleId activities).completedRaffles = 1
        ↔ ∃ a ∈ activities, a.raffleId = raffleId ∧ a.type = ActivityType.raffle_finalized)
    ∧ (getRaffleStats raffleId activities).activeRaffles
        = 1 - (getRaffleStats raffleId activities).completedRaffles
    ∧ (getRaffleStats raffleId activities).activeRaffles
        + (getRaffleStats raffleId activities).completedRaffles = 1
    ∧ getRaffleStats raffleId []
        = { totalTicketsSold := 0, totalVolume := 0, uniqueParticipants := 0,
            averageTicketsPerUser := 0, totalRaffles := 1, activeRaffles := 1,
            completedRaffles := 0 } := by
  have hcomp : (getRaffleStats raffleId activities).completedRaffles
      = if (activities.filter (fun a => a.raffleId == raffleId)).any
            (fun a => a.type == ActivityType.raffle_finalized) then 1 else 0 := rfl
  have hact : (getRaffleStats raffleId activities).activeRaffles
      = if (activities.filter (fun a => a.raffleId == raffleId)).any
            (fun a => a.type == ActivityType.raffle_finalized) then 0 else 1 := rfl
  have hiff : (activities.filter (fun a => a.raffleId == raffleId)).any
        (fun a => a.type == ActivityType.raffle_finalized) = true
      ↔ ∃ a ∈ activities, a.raffleId = raffleId ∧ a.type = ActivityType.raffle_finalized := by
    simp [List.any_eq_true, List.mem_filter, and_assoc, beq_iff_eq]
  refine ⟨rfl, ?_, ?_, ?_, rfl⟩
  · rw [hcomp]
    by_cases h : (activities.filter (fun a => a.raffleId == raffleId)).any
        (fun a => a.type == ActivityType.raffle_finalized) = true
    · rw [if_pos h]
      exact ⟨fun _ => hiff.mp h, fun _ => rfl⟩
    · rw [if_neg h]
      constructor
      · intro h01
        exact absurd h01 (by decide)
      · intro hex
        exact absurd (hiff.mpr hex) h
  · rw [hact, hcomp]
    by_cases h : (activities.filter (fun a => a.raffleId == raffleId)).any
        (fun a => a.type == ActivityType.raffle_finalized) = true <;> simp [h]
  · rw [hact, hcomp]
    by_cases h : (activities.filter (fun a => a.raffleId == raffleId)).any
        (fun a => a.type == ActivityType.raffle_finalized) = true <;> simp [h]

/-- C10 witness: a raffle id with no records is one active, zero completed. -/
theorem spec2_C10_witness :
    getRaffleStats 5 []
      = { totalTicketsSold := 0, totalVolume := 0, uniqueParticipants := 0,
          averageTicketsPerUser := 0, totalRaffles := 1, activeRaffles := 1,
          completedRaffles := 0 } :=
  (spec2_C10_raffleStats 5 []).2.2.2.2

/-- C7 counterexample: a purchase with `ticketCount = -5` and
`totalPaid = -2` contributes its negative values to the sums, not `0`
(the JS `|| 0` guard only replaces absent or zero values). -/
theorem spec2_C7_counterexample :
    (getPlatformStats [negActivity]).totalTicketsSold = -5
    ∧ (getPlatformStats [negActivity]).totalVolume = -2
    ∧ (getGlobalLeaderboard [negActivity] 10).map (fun e => e.totalTickets) = [(-5 : ℚ)]
    ∧ ¬ (getPlatformStats [negActivity]).totalTicketsSold = 0 := by
  refine ⟨?_, ?_, ?_, ?_⟩
  · norm_num [getPlatformStats, negActivity]
  · norm_num [getPlatformStats, negActivity]
  · norm_num [getGlobalLeaderboard, aggregateUsers, negActivity, isPurchaseWithBuyer, strTruthy,
      buyerKey, upsertUser, applyPurchase, emptyAgg, addRaffle, toEntries, sortDesc, insertDesc,
      assignRanksFrom]
  · norm_num [getPlatformStats, negActivity]

/-- C7 amended: in the aggregation sums, a record whose `ticketCount` or
`amountPaid` is absent contributes `0`; negative values pass through the
`|| 0` guard unchanged (see the counterexample). Appending a record with both
monetary fields absent never changes the stats sums or any buyer's
aggregated tickets/spend. -/
theorem spec2_C7_absent_zero (activities : List RaffleActivity) (a : RaffleActivity)
    (h1 : a.ticketCount = none) (h2 : a.totalPaid = none) :
    (getPlatformStats (activities ++ [a])).totalTicketsSold
        = (getPlatformStats activities).totalTicketsSold
    ∧ (getPlatformStats (activities ++ [a])).totalVolume
        = (getPlatformStats activities).totalVolume
    ∧ (∀ addr : String,
        (lookupAggD (aggregateUsers (activities ++ [a])) addr).tickets
            = (lookupAggD (aggregateUsers activities) addr).tickets
        ∧ (lookupAggD (aggregateUsers (activities ++ [a])) addr).spent
            = (lookupAggD (aggregateUsers activities) addr).spent) := by
  have hsum : ∀ L : List RaffleActivity,
      (getPlatformStats L).totalTicketsSold
        = (L.filter (fun x => x.type == ActivityType.ticket_purchase)).foldl
            (fun s x => s + x.ticketCount.getD 0) 0 := fun _ => rfl
  have hvol : ∀ L : List RaffleActivity,
      (getPlatformStats L).totalVolume
        = (L.filter (fun x => x.type == ActivityType.ticket_purchase)).foldl
            (fun s x => s + x.totalPaid.getD 0) 0 := fun _ => rfl
  refine ⟨?_, ?_, ?_⟩
  · rw [hsum, hsum, List.filter_append]
    by_cases hp : (a.type == ActivityType.ticket_purchase) = true
    · simp [hp, h1]
    · simp [hp]
  · rw [hvol, hvol, List.filter_append]
    by_cases hp : (a.type == ActivityType.ticket_purchase) = true
    · simp [hp, h2]
    · simp [hp]
  · intro addr
    by_cases hp : isPurchaseWithBuyer a = true
    · have hagg : aggregateUsers (activities ++ [a])
          = upsertUser (aggregateUsers activities) (buyerKey a) a := by
        simp [aggregateUsers, List.filter_append, hp]
      rw [hagg, lookupAggD_upsertUser]
      by_cases haddr : addr = buyerKey a
      · simp [haddr, applyPurchase, h1, h2]
      · simp [haddr]
    · have hagg : aggregateUsers (activities ++ [a]) = aggregateUsers activities := by
        simp [aggregateUsers, List.filter_append, hp]
      rw [hagg]
      exact ⟨rfl, rfl⟩

/-- C7 witness: appending a purchase with absent monetary fields leaves the
ticket sum unchanged. -/
theorem spec2_C7_witness :
    (getPlatformStats ([negActivity] ++ [absentActivity])).totalTicketsSold
        = (getPlatformStats [negActivity]).totalTicketsSold
    ∧ (lookupAggD (aggregateUsers ([negActivity] ++ [absentActivity])) "0xC").tickets
        = (lookupAggD (aggregateUsers [negActivity]) "0xC").tickets :=
  ⟨(spec2_C7_absent_zero [negActivity] absentActivity rfl rfl).1,
   ((spec2_C7_absent_zero [negActivity] absentActivity rfl rfl).2.2 "0xC").1⟩

/-- C8: monetary fields are the raw integer-subunit (octa) value divided by
the fixed scale `10^8`, and the conversion is exact (multiplying back
recovers the raw value; for `octasToMove`, `Math.round` is the identity on
whole subunit counts). -/
theorem spec2_C8_scaling :
    (∀ n : ℤ, octasToMove (n : ℚ) = (n : ℚ) / 100000000)
    ∧ (∀ n : ℤ, octasToMove (n : ℚ) * 100000000 = (n : ℚ))
    ∧ (∀ (e : RawEvent) (a : RaffleActivity), parseEventData e = some a →
        (a.type = ActivityType.ticket_purchase →
          a.totalPaid = some (jsNum2 e.data.total_paid e.data.totalPaid / 100000000))
        ∧ (a.type = ActivityType.raffle_finalized →
          a.prizeAmount
            = some (jsNum3 e.data.prize_amount e.data.prizeAmount e.data.amount / 100000000))
        ∧ (a.type = ActivityType.raffle_created →
          a.prizeAmount
            = some ((if jsNum2 e.data.target_amount e.data.targetAmount > 0
                then jsNum2 e.data.target_amount e.data.targetAmount
                else jsNum2 e.data.ticket_price e.data.ticketPrice
                  * jsNum2 e.data.total_tickets e.data.totalTickets) / 100000000))) := by
  have hround : ∀ n : ℤ, octasToMove (n : ℚ) = (n : ℚ) / 100000000 := by
    intro n
    unfold octasToMove jsMathRound
    rw [Int.floor_int_add]
    norm_num
  refine ⟨hround, ?_, ?_⟩
  · intro n
    rw [hround]
    exact div_mul_cancel₀ _ (by norm_num)
  · intro e a h
    unfold parseEventData at h
    dsimp only at h
    split at h
    · obtain rfl := Option.some.inj h
      exact ⟨fun _ => rfl, fun hc => by simp at hc, fun hc => by simp at hc⟩
    · split at h
      · obtain rfl := Option.some.inj h
        exact ⟨fun hc => by simp at hc, fun hc => by simp at hc, fun _ => rfl⟩
      · split at h
        · obtain rfl := Option.some.inj h
          exact ⟨fun hc => by simp at hc, fun _ => rfl, fun hc => by simp at hc⟩
        · exact absurd h (by simp)

/-- C8 witness: the parsed demo buy event carries
`150000000 / 10^8 = 3/2` as `totalPaid`, and `octasToMove` is exact at `7`. -/
theorem spec2_C8_witness :
    validParsedActivity.totalPaid
        = some (jsNum2 validRawEvent.data.total_paid validRawEvent.data.totalPaid / 100000000)
    ∧ octasToMove ((7 : ℤ) : ℚ) = ((7 : ℤ) : ℚ) / 100000000 := by
  have hp : parseEventData validRawEvent = some validParsedActivity := by
    simp +decide only [parseEventData, validRawEvent]
    norm_num [validParsedActivity, jsNum2, jsNum1, jsInt2, jsStr2, jsOrStr, strTruthy]
    decide
  exact ⟨(spec2_C8_scaling.2.2 validRawEvent validParsedActivity hp).1 rfl,
    spec2_C8_scaling.1 7⟩

theorem processRaffleEvents_eq_filterMap (events : List RawEvent) :
    processRaffleEvents events = events.filterMap parseEventData := by
  induction events with
  | nil => rfl
  | cons e es ih =>
    simp only [processRaffleEvents, List.map_cons, List.filterMap_cons] at ih ⊢
    cases parseEventData e <;> simp [ih]

/-- C5: parsing drops each malformed event and keeps each well-formed one, so
one bad event never fails the batch; in particular a batch of one
type-tag-less event and one valid buy event yields exactly the parsed valid
record. -/
theorem spec2_C5_parse_policy :
    (∀ (pre post : List RawEvent) (e : RawEvent), parseEventData e = none →
        processRaffleEvents (pre ++ e :: post) = processRaffleEvents (pre ++ post))
    ∧ (∀ (pre post : List RawEvent) (e : RawEvent) (a : RaffleActivity),
        parseEventData e = some a →
        processRaffleEvents (pre ++ e :: post)
          = processRaffleEvents pre ++ a :: processRaffleEvents post)
    ∧ parseEventData malformedRawEvent = none
    ∧ processRaffleEvents [malformedRawEvent, validRawEvent] = [validParsedActivity] := by
  refine ⟨?_, ?_, ?_, ?_⟩
  · intro pre post e h
    simp [processRaffleEvents_eq_filterMap, List.filterMap_append, List.filterMap_cons, h]
  · intro pre post e a h
    simp [processRaffleEvents_eq_filterMap, List.filterMap_append, List.filterMap_cons, h]
  · decide
  · simp +decide only [processRaffleEvents, parseEventData, malformedRawEvent, validRawEvent,
      List.map_cons, List.map_nil, List.filterMap]
    norm_num [validParsedActivity, jsNum2, jsNum1, jsInt2, jsStr2, jsOrStr, strTruthy]
    decide

/-- C5 witness: dropping the concrete malformed event from a batch leaves the
parse of the rest unchanged. -/
theorem spec2_C5_witness :
    processRaffleEvents ([validRawEvent] ++ malformedRawEvent :: [])
      = processRaffleEvents ([validRawEvent] ++ []) :=
  spec2_C5_parse_policy.1 [validRawEvent] [] malformedRawEvent (by decide)

/-- C6: a thrown upstream query error and a response with missing data both
yield the empty list, indistinguishable from an upstream that has no
events. -/
theorem spec2_C6_fetch_failure_empty :
    fetchRaffleEvents FetchOutcome.queryThrown = []
    ∧ (∀ hasErrors : Bool, fetchRaffleEvents (FetchOutcome.response none hasErrors) = [])
    ∧ (∀ hasErrors : Bool,
        fetchRaffleEvents (FetchOutcome.response (some []) hasErrors) = []) :=
  ⟨rfl, fun _ => rfl, fun _ => rfl⟩

/-- C4: `processActivityNotifications` checks the processed marker first and
skips every side effect when it is set; after a handler that completes, the
marker for the activity's `transactionVersion` is appended; after a handler
that raises, the effects it emitted remain but the marker stays unset. -/
theorem spec2_C4_dedup_ledger (handler : RaffleActivity → HandlerResult)
    (activity : RaffleActivity) (s : NotifState) :
    (isTransactionProcessed s activity.transactionVersion = true →
      processActivityNotifications handler activity s = s)
    ∧ (isTransactionProcessed s activity.transactionVersion = false →
        (∀ effs, handler activity = HandlerResult.ok effs →
          processActivityNotifications handler activity s
            = { processed := s.processed ++ [processedKey activity.transactionVersion],
                effects := s.effects ++ effs })
        ∧ (∀ effs, handler activity = HandlerResult.raised effs →
          processActivityNotifications handler activity s
            = { s with effects := s.effects ++ effs })) := by
  constructor
  · intro h
    simp [processActivityNotifications, h]
  · intro h
    constructor
    · intro effs heff
      simp [processActivityNotifications, h, heff, markTransactionProcessed]
    · intro effs heff
      simp [processActivityNotifications, h, heff]

/-- C4 witness: on a fresh state the completing handler leaves the marker set
and the effect logged; the raising handler leaves both untouched; a state
with the marker set is returned unchanged. -/
theorem spec2_C4_witness :
    processActivityNotifications demoHandlerOk demoActivity ⟨[], []⟩
        = { processed := [processedKey "42"], effects := ["notify-creator"] }
    ∧ processActivityNotifications demoHandlerRaised demoActivity ⟨[], []⟩
        = { processed := [], effects := [] }
    ∧ processActivityNotifications demoHandlerOk demoActivity
          ⟨[processedKey "42"], ["earlier"]⟩
        = ⟨[processedKey "42"], ["earlier"]⟩ := by
  refine ⟨?_, ?_, ?_⟩
  · have h := ((spec2_C4_dedup_ledger demoHandlerOk demoActivity ⟨[], []⟩).2
      (by decide)).1 ["notify-creator"] rfl
    simpa using h
  · have h := ((spec2_C4_dedup_ledger demoHandlerRaised demoActivity ⟨[], []⟩).2
      (by decide)).2 [] rfl
    simpa using h
  · exact (spec2_C4_dedup_ledger demoHandlerOk demoActivity
      ⟨[processedKey "42"], ["earlier"]⟩).1 (by decide)

theorem countForVersion_append_single (t : List UserActivity) (r : UserActivity) (v : String) :
    countForVersion (t ++ [r]) v
      = countForVersion t v + (if r.transaction_version = v then 1 else 0) := by
  by_cases h : r.transaction_version = v
  · simp [countForVersion, List.filter_append, h]
  · simp [countForVersion, List.filter_append, h]

theorem any_version_iff (t : List UserActivity) (w : String) :
    (t.any (fun x => x.transaction_version == w)) = true ↔ 0 < countForVersion t w := by
  simp [countForVersion, List.any_eq_true, List.length_pos_iff_exists_mem, List.mem_filter]

theorem countForVersion_upsert_eq_one (rows : List UserActivity) :
    ∀ (t : List UserActivity) (v : String), countForVersion t v ≤ 1 →
      (countForVersion t v = 1 ∨ ∃ r ∈ rows, r.transaction_version = v) →
      countForVersion (upsertIgnoreDuplicates t rows) v = 1 := by
  induction rows with
  | nil =>
    intro t v _ hor
    rcases hor with h1 | ⟨r, hr, _⟩
    · simpa [upsertIgnoreDuplicates] using h1
    · cases hr
  | cons r rows ih =>
    intro t v hle hor
    show countForVersion
        (upsertIgnoreDuplicates
          (if t.any (fun x => x.transaction_version == r.transaction_version) then t
           else t ++ [r]) rows) v = 1
    by_cases hany : (t.any (fun x => x.transaction_version == r.transaction_version)) = true
    · rw [if_pos hany]
      refine ih t v hle ?_
      rcases hor with h1 | ⟨r2, hr2, hv2⟩
      · exact Or.inl h1
      · rcases List.mem_cons.mp hr2 with rfl | hr2
        · left
          have hpos := (any_version_iff t r2.transaction_version).mp hany
          rw [hv2] at hpos
          omega
        · exact Or.inr ⟨r2, hr2, hv2⟩
    · rw [if_neg hany]
      have hzero : countForVersion t r.transaction_version = 0 := by
        have hnot : ¬ 0 < countForVersion t r.transaction_version := by
          rw [← any_version_iff]
          exact hany
        omega
      by_cases hrv : r.transaction_version = v
      · have h0 : countForVersion t v = 0 := by rw [← hrv]; exact hzero
        refine ih (t ++ [r]) v ?_ ?_
        · rw [countForVersion_append_single, h0, if_pos hrv]
        · left
          rw [countForVersion_append_single, h0, if_pos hrv]
      · have hkeep : countForVersion (t ++ [r]) v = countForVersion t v := by
          rw [countForVersion_append_single, if_neg hrv]
          omega
        refine ih (t ++ [r]) v (by omega) ?_
        rcases hor with h1 | ⟨r2, hr2, hv2⟩
        · left; omega
        · rcases List.mem_cons.mp hr2 with rfl | hr2
          · exact absurd hv2 hrv
          · exact Or.inr ⟨r2, hr2, hv2⟩

/-- C3: with analytics enabled, ingesting a batch that contains (one or more)
records with `transactionVersion = v` through the conflict-target upsert
leaves exactly one persisted row for `v`, provided the table already
satisfied the at-most-one invariant for `v`. -/
theorem spec2_C3_idempotent_ingestion (table : List UserActivity)
    (activities : List RaffleActivity) (v : String)
    (htable : countForVersion table v ≤ 1)
    (hin : ∃ a ∈ activities, a.transactionVersion = v) :
    countForVersion (trackActivitiesBatch true table activities) v = 1 := by
  obtain ⟨a, ha, hav⟩ := hin
  have hne : activities.isEmpty = false := by
    cases activities
    · cases ha
    · rfl
  unfold trackActivitiesBatch
  simp only [Bool.not_true, Bool.false_or, hne, Bool.false_eq_true, if_false]
  refine countForVersion_upsert_eq_one (activities.map toUserActivity) table v htable ?_
  exact Or.inr ⟨toUserActivity a, List.mem_map.mpr ⟨a, ha, rfl⟩, hav⟩

/-- C3 witness: a duplicated concrete activity persists exactly once into an
empty table. -/
theorem spec2_C3_witness :
    countForVersion (trackActivitiesBatch true [] [demoActivity, demoActivity]) "42" = 1 :=
  spec2_C3_idempotent_ingestion [] [demoActivity, demoActivity] "42" (by decide)
    ⟨demoActivity, List.mem_cons_self demoActivity [demoActivity], rfl⟩

/-- C9 counterexample: the cited `apiRoutes` global-activity endpoint returns
a successful envelope that carries neither a `cached` indicator nor a
`source` tag, contradicting the claim that every read endpoint does. -/
theorem spec2_C9_counterexample :
    (activityGlobalResponse (Except.ok [])).success = true
    ∧ (activityGlobalResponse (Except.ok [])).cached = none
    ∧ (activityGlobalResponse (Except.ok [])).source = none :=
  ⟨rfl, rfl, rfl⟩

/-- C9 amended: the `apiRoutes` read endpoints (activity, leaderboard, stats)
return only the success/failure envelope — success flag with data (and, for
the list endpoints, a count) or an error message — with no `cached` or
`source` field; only the `raffleRoutes` endpoints carry `cached` and a
`source` tag, and on the multi-tier leaderboard endpoint its value is one of
`"redis"`, `"supabase"`, `"computed"` (the fast-tier, slow-tier and computed
markers), not the literals `"fast-tier"`/`"slow-tier"`. -/
theorem spec2_C9_envelopes :
    (∀ activities : List RaffleActivity,
      activityGlobalResponse (Except.ok activities)
        = { success := true, data := some activities, count := some activities.length })
    ∧ activityGlobalResponse (Except.error ())
        = { success := false, errorMsg := some "Failed to fetch global activity" }
    ∧ (∀ leaderboard : List LeaderboardEntry,
      leaderboardGlobalResponse (Except.ok leaderboard)
        = { success := true, data := some leaderboard, count := some leaderboard.length })
    ∧ leaderboardGlobalResponse (Except.error ())
        = { success := false, errorMsg := some "Failed to fetch global leaderboard" }
    ∧ (∀ stats : RaffleStats,
      statsPlatformResponse (Except.ok stats) = { success := true, data := some stats })
    ∧ statsPlatformResponse (Except.error ())
        = { success := false, errorMsg := some "Failed to fetch platform stats" }
    ∧ (∀ redisCache supabaseCache : Option String,
        (raffleLeaderboardResponse redisCache supabaseCache).success = true
        ∧ (raffleLeaderboardResponse redisCache supabaseCache).cached.isSome = true
        ∧ ((raffleLeaderboardResponse redisCache supabaseCache).source = some "redis"
           ∨ (raffleLeaderboardResponse redisCache supabaseCache).source = some "supabase"
           ∨ (raffleLeaderboardResponse redisCache supabaseCache).source = some "computed")) := by
  refine ⟨fun _ => rfl, rfl, fun _ => rfl, rfl, fun _ => rfl, rfl, ?_⟩
  intro redisCache supabaseCache
  cases redisCache with
  | some v => exact ⟨rfl, rfl, Or.inl rfl⟩
  | none =>
    cases supabaseCache with
    | some v => exact ⟨rfl, rfl, Or.inr (Or.inl rfl)⟩
    | none => exact ⟨rfl, rfl, Or.inr (Or.inr rfl)⟩
